import Mathlib

set_option autoImplicit false

/-!
Verification of the contributors markdown module (`contributors/markdown.py`).

The Python source is shallowly embedded below: each Python function becomes a
Lean definition of the same name; Python strings are Lean `String`s, Python
lists are Lean `List`s, machine integers are `Nat`, and the two runtime errors
the module can raise (`IndexError` from a failed `[1]` lookup and
`UnboundLocalError` from reading a never-assigned local) are modelled with
`Except PyErr`.
-/

/-- Python `str(bool)`. -/
def pyBool : Bool → String
  | true => "True"
  | false => "False"

/-- Concatenation of a list of strings (Python `"".join` / sequential
`write` calls). -/
def strConcat : List String → String
  | [] => ""
  | x :: xs => x ++ strConcat xs

/-- If `pat` is a leading segment of `l`, return the remainder of `l`. -/
def stripPre : List Char → List Char → Option (List Char)
  | [], l => some l
  | _ :: _, [] => none
  | p :: ps, c :: cs => if c = p then stripPre ps cs else none

/-- Fuel-driven core of Python `str.split(sep)` (for non-empty `sep`).
With fuel at least the length of the input the fuel never runs out. -/
def splitChF (sep : List Char) : Nat → List Char → List (List Char)
  | 0, l => [l]
  | fuel + 1, l =>
    match l with
    | [] => [[]]
    | c :: cs =>
      match stripPre sep (c :: cs) with
      | some rest => [] :: splitChF sep fuel rest
      | none =>
        (c :: (splitChF sep fuel cs).headD []) :: (splitChF sep fuel cs).tail

/-- Python `s.split(sep)` for a non-empty separator: split on every occurrence,
keeping empty pieces. -/
def pySplit (s sep : String) : List String :=
  (splitChF sep.data s.data.length s.data).map (fun l => String.mk l)

/-- Python `s.strip()`: drop whitespace from both ends. -/
def pyStrip (s : String) : String :=
  String.mk (((s.data.dropWhile Char.isWhitespace).reverse.dropWhile Char.isWhitespace).reverse)

/-- One record of the externally supplied contributor statistics
(`ContributorStats` in the source). -/
structure ContributorStats where
  username : String
  contribution_count : Nat
  new_contributor : Bool
  commit_url : String
  organizations : List String
  sponsor_info : String
deriving Repr, DecidableEq

/-- The `repository` argument: either a scalar (`None` or a string) or a list.
The source mutates a scalar into a one-element list inside the loop. -/
inductive Repo where
  | scalar : Option String → Repo
  | list : List (Option String) → Repo
deriving Repr, DecidableEq

/-- Python truthiness of the repository value. -/
def Repo.truthy : Repo → Bool
  | .scalar none => false
  | .scalar (some s) => !(s == "")
  | .list l => !l.isEmpty

/-- The list the repository value becomes after
`if not isinstance(repository, list): repository = [repository]`. -/
def Repo.asList : Repo → List (Option String)
  | .scalar v => [v]
  | .list l => l

/-- The wrap step itself, keeping the result as a `Repo`. -/
def Repo.normalize (r : Repo) : Repo := Repo.list r.asList

/-- Python `len` of the (already wrapped) repository value. -/
def Repo.pyLen (r : Repo) : Nat := r.asList.length

/-- A single quote character, used by the Python `str()` of a list. -/
def pyQuote : String := String.singleton (Char.ofNat 39)

/-- Python `str(repository)` as interpolated into the header line. -/
def Repo.pyStr : Repo → String
  | .scalar none => "None"
  | .scalar (some s) => s
  | .list l =>
    "[" ++ String.intercalate ", " (l.map (fun v =>
      match v with
      | none => "None"
      | some s => pyQuote ++ s ++ pyQuote)) ++ "]"

/-- The unhandled Python exceptions the module can raise. -/
inductive PyErr where
  | indexError
  | unboundLocalError
deriving Repr, DecidableEq

/-- The mutable locals of the `for collaborator in collaborators` loop in
`get_contributor_table`: the running total, the (possibly rebound)
`repository` variable, the `commit_urls` local (`none` while still unassigned),
and the `organization_contributors` insertion-ordered mapping. -/
structure LoopState where
  total : Nat
  repo : Repo
  commit_urls : Option String
  groups : List (String × List String)
deriving Repr, DecidableEq

/-- The `columns` list built at the top of `get_contributor_table`. -/
def columnsFor (start_date end_date sponsor_info : String) : List String :=
  ["Username", "All Time Contribution Count"]
    ++ (if start_date ≠ "" ∧ end_date ≠ "" then ["New Contributor"] else [])
    ++ (if sponsor_info == "true" then ["Sponsor URL"] else [])
    ++ (if start_date ≠ "" ∧ end_date ≠ "" then
          ["Commits between " ++ start_date ++ " and " ++ end_date]
        else ["All Commits"])

/-- The `headers` block: the column names row and the `---` separator row. -/
def headersFor (columns : List String) : String :=
  "| " ++ String.intercalate " | " columns ++ " |\n"
    ++ "| " ++ String.intercalate " | " (List.replicate columns.length "---") ++ " |\n"

/-- One iteration of the `for url in commit_url_list` loop: strip the url,
take the part before `/commits`, then the part after `github.com/` (the `[1]`
lookup raises `IndexError` when `github.com/` does not occur), and append a
markdown link plus `", "` to the accumulator. -/
def commitLinkStep (acc : String) (url : String) : Except PyErr String :=
  let url := pyStrip url
  let p0 := (pySplit url "/commits").headD ""
  match (pySplit p0 "github.com/").get? 1 with
  | none => Except.error PyErr.indexError
  | some org_repo_link_name =>
      Except.ok (acc ++ "[" ++ org_repo_link_name ++ "](" ++ url ++ ")" ++ ", ")

/-- The `for url in commit_url_list` loop: thread the `commit_urls`
accumulator through `commitLinkStep`, propagating the first exception. -/
def commitLinkFold (acc : String) : List String → Except PyErr String
  | [] => Except.ok acc
  | u :: us =>
    match commitLinkStep acc u with
    | Except.error e => Except.error e
    | Except.ok acc' => commitLinkFold acc' us

/-- The whole splitting branch: `commit_url.split(",")` folded through
`commitLinkStep`, starting from the empty string. -/
def commitCell (commit_url : String) : Except PyErr String :=
  commitLinkFold "" (pySplit commit_url ",")

/-- The row string assembled for one collaborator, given the already computed
commit-reference cell `cu`. -/
def rowFor (columns : List String) (link_to_profile : String)
    (c : ContributorStats) (cu : String) : String :=
  let r := "| " ++ (if link_to_profile == "false" then "" else "@") ++ c.username
      ++ " | " ++ toString c.contribution_count ++ " |"
  let r := if columns.contains "New Contributor" then
      r ++ " " ++ pyBool c.new_contributor ++ " |" else r
  let r := if columns.contains "Sponsor URL" then
      r ++ (if c.sponsor_info == "" then " not sponsorable |"
            else " [Sponsor Link](" ++ c.sponsor_info ++ ") |")
    else r
  r ++ " " ++ cu ++ " |\n"

/-- The `for org in collaborator.organizations or []` loop with its `break`:
the first organization whose membership test succeeds, else `"Independent"`. -/
def groupFor (organizations : List String) (show_organizations_list : List String) : String :=
  match organizations.find? (fun org =>
      show_organizations_list.contains org || show_organizations_list.contains "all") with
  | some org => org
  | none => "Independent"

/-- `organization_contributors[g].append(row)` on an insertion-ordered map. -/
def addToGroup (groups : List (String × List String)) (g : String) (row : String) :
    List (String × List String) :=
  match groups with
  | [] => [(g, [row])]
  | (k, rows) :: rest =>
      if k = g then (k, rows ++ [row]) :: rest else (k, rows) :: addToGroup rest g row

/-- One iteration of the collaborator loop of `get_contributor_table`. -/
def processCollaborator (organization : String) (link_to_profile : String)
    (columns show_organizations_list : List String)
    (st : LoopState) (c : ContributorStats) : Except PyErr LoopState :=
  let total := st.total + c.contribution_count
  -- if repository: commit_urls = collaborator.commit_url
  let cu0 := if st.repo.truthy then some c.commit_url else st.commit_urls
  -- if not isinstance(repository, list): repository = [repository]
  let repo := st.repo.normalize
  -- if organization or len(repository) > 1: ... build markdown links ...
  let cuE : Except PyErr (Option String) :=
    if organization ≠ "" ∨ 1 < repo.pyLen then
      match commitCell c.commit_url with
      | Except.error e => Except.error e
      | Except.ok s => Except.ok (some s)
    else Except.ok cu0
  match cuE with
  | Except.error e => Except.error e
  | Except.ok none => Except.error PyErr.unboundLocalError
  | Except.ok (some cuStr) =>
      Except.ok
        { total := total
          repo := repo
          commit_urls := some cuStr
          groups := addToGroup st.groups (groupFor c.organizations show_organizations_list)
              (rowFor columns link_to_profile c cuStr) }

/-- The collaborator loop of `get_contributor_table`: iterate
`processCollaborator`, propagating the first exception. -/
def runLoop (collaborators : List ContributorStats) (organization link_to_profile : String)
    (columns show_organizations_list : List String) (init : LoopState) :
    Except PyErr LoopState :=
  match collaborators with
  | [] => Except.ok init
  | c :: rest =>
    match processCollaborator organization link_to_profile columns show_organizations_list
        init c with
    | Except.error e => Except.error e
    | Except.ok st =>
        runLoop rest organization link_to_profile columns show_organizations_list st

/-- `get_contributor_table`: the per-organization tables (insertion order) and
the total contribution count, or the unhandled exception. -/
def get_contributor_table (collaborators : List ContributorStats)
    (start_date end_date organization : String) (repository : Repo)
    (sponsor_info link_to_profile : String) (show_organizations_list : List String) :
    Except PyErr (List (String × String) × Nat) :=
  let columns := columnsFor start_date end_date sponsor_info
  let headers := headersFor columns
  match runLoop collaborators organization link_to_profile columns show_organizations_list
      { total := 0, repo := repository, commit_urls := none, groups := [] } with
  | Except.error e => Except.error e
  | Except.ok st =>
      Except.ok (st.groups.map (fun p => (p.1, headers ++ strConcat p.2)), st.total)

/-- Round half to even on a rational: the spec's "rounded to 2 decimal
places" read as exact decimal rounding (ties to even). Used only to state
the spec-side formula, not to model the program. -/
def rhe (q : ℚ) : ℤ := if Int.fract q = 1 / 2 then 2 * round (q / 2) else round q

/-- The spec-side "(value) rounded to 2 decimal places" on exact rationals
(ties to even); `round` itself gives the ties-up reading. -/
def pyRound2 (q : ℚ) : ℚ := (rhe (q * 100) : ℚ) / 100

/-- Bit length of a natural number (fuel-driven, structural so the kernel
can evaluate it; recursion depth is the bit length, far below the fuel). -/
def bitlenF : Nat → Nat → Nat
  | 0, _ => 0
  | fuel + 1, n => if n = 0 then 0 else bitlenF fuel (n / 2) + 1

def bitlen (n : Nat) : Nat := bitlenF n n

/-- A non-negative finite IEEE-754 double in the normal range, as the exact
value `m * 2 ^ e` with `m = 0` or `2 ^ 52 ≤ m < 2 ^ 53`. The percentages of
this module stay far from overflow and subnormals, so exponent clamping is
not modelled. -/
structure F64 where
  m : Nat
  e : ℤ
deriving Repr, DecidableEq

/-- Round an exact value `m * 2 ^ e` to the nearest double (ties to even),
IEEE-754 round-to-nearest on a 53-bit significand. -/
def normalizeF (m : Nat) (e : ℤ) : F64 :=
  if m = 0 then ⟨0, 0⟩
  else
    let L := bitlen m
    if L ≤ 53 then ⟨m * 2 ^ (53 - L), e - ((53 - L : Nat) : ℤ)⟩
    else
      let s := L - 53
      let q := m / 2 ^ s
      let r := m % 2 ^ s
      let h := 2 ^ (s - 1)
      let q' := if h < r ∨ (r = h ∧ q % 2 = 1) then q + 1 else q
      if q' = 2 ^ 53 then ⟨2 ^ 52, e + (s : ℤ) + 1⟩ else ⟨q', e + (s : ℤ)⟩

/-- The double nearest to the rational `a / b` (`b > 0`): scale to a 56-bit
quotient, append a sticky bit for the remainder, then round to 53 bits. -/
def nearestRat (a b : Nat) : F64 :=
  if a = 0 then ⟨0, 0⟩
  else
    let t := 55 + bitlen b
    let n := a * 2 ^ t
    normalizeF (2 * (n / b) + (if n % b = 0 then 0 else 1)) (-(t : ℤ) - 1)

/-- Python `a / b` on two ints: true division, correctly rounded to double. -/
def pyDiv (a b : Nat) : F64 := nearestRat a b

/-- IEEE multiplication by the double `100.0` (exactly representable, so the
exact product is re-rounded to 53 bits). -/
def mulF100 (x : F64) : F64 := normalizeF (x.m * 100) x.e

/-- CPython `round(x, 2)` for a non-negative double: round the exact value
of the double to the closest multiple of 1/100, ties to even (CPython's
documented behavior); returned in hundredths. The double CPython then
returns is the one nearest that decimal, and at these magnitudes its `str`
is exactly that decimal again, so the hundredths determine the output. -/
def round2dec (x : F64) : Nat :=
  if 0 ≤ x.e then x.m * 2 ^ x.e.toNat * 100
  else
    let den := 2 ^ (-x.e).toNat
    let n := x.m * 100
    let q := n / den
    let r := n % den
    if den < 2 * r ∨ (2 * r = den ∧ q % 2 = 1) then q + 1 else q

/-- The `new_contributors_percentage` hundredths computed by
`get_summary_table`: `round(len(new) / len(collaborators) * 100, 2)` in
IEEE-754 double arithmetic (division rounds, multiplication rounds, then
CPython `round`). -/
def pctHundredths (collaborators : List ContributorStats) : Nat :=
  round2dec (mulF100 (pyDiv (collaborators.filter (fun x => x.new_contributor)).length
    collaborators.length))

/-- Python `str` of the double produced by `round(_, 2)`, rendered from its
hundredths: shortest round-trip repr, which at these magnitudes is the
decimal itself with trailing zeros trimmed and at least one decimal digit. -/
def pyFloatStrN (k : Nat) : String :=
  let ip := k / 100
  let fr := k % 100
  if fr = 0 then toString ip ++ ".0"
  else if fr % 10 = 0 then toString ip ++ "." ++ toString (fr / 10)
  else if fr < 10 then toString ip ++ ".0" ++ toString fr
  else toString ip ++ "." ++ toString fr

/-- `get_summary_table`. In the empty case the Python value is the integer
`0`, printed `"0"`; otherwise it is a float, printed with a decimal point. -/
def get_summary_table (collaborators : List ContributorStats)
    (start_date end_date : String) (total_contributions : Nat) : String :=
  if start_date ≠ "" ∧ end_date ≠ "" then
    "| Total Contributors | Total Contributions | % New Contributors |\n| --- | --- | --- |\n"
      ++ "| " ++ toString collaborators.length ++ " | " ++ toString total_contributions
      ++ " | "
      ++ (if 0 < collaborators.length then pyFloatStrN (pctHundredths collaborators)
          else "0")
      ++ "% |\n\n"
  else
    "| Total Contributors | Total Contributions |\n| --- | --- |\n"
      ++ "| " ++ toString collaborators.length ++ " | " ++ toString total_contributions
      ++ " |\n\n"

/-- The heading written before a group table in the multi-group branch.
Note the Python source writes `f"## {org} \n"` for Independent: the heading
carries a trailing space before the newline. -/
def orgTitle (org : String) : String :=
  if ¬(org = "Independent") then "## [" ++ org ++ "](https://github.com/" ++ org ++ ")\n"
  else "## " ++ org ++ " \n"

/-- The per-organization sections of the `else` branch of
`write_markdown_file`: list the keys, move `Independent` last, then write
heading plus table for each. -/
def sectionsFor (table : List (String × String)) : String :=
  let orgs := table.map Prod.fst
  let orgs := if orgs.contains "Independent"
      then orgs.erase "Independent" ++ ["Independent"] else orgs
  strConcat (orgs.map (fun org => orgTitle org ++ ((table.lookup org).getD "")))

/-- The header lines of the document (title, optional date range,
organization and repository lines, blank line). -/
def docHeader (start_date end_date organization : String) (repository : Repo) : String :=
  "# Contributors\n\n"
    ++ (if start_date ≠ "" ∧ end_date ≠ "" then
          "- Date range for contributor list:  " ++ start_date ++ " to " ++ end_date ++ "\n"
        else "")
    ++ (if organization ≠ "" then "- Organization: " ++ organization ++ "\n" else "")
    ++ (if repository.truthy then "- Repository: " ++ repository.pyStr ++ "\n" else "")
    ++ "\n"

/-- The fixed attribution footer. -/
def docFooter : String :=
  "\n _this file was generated by the [Organizational Contributors GitHub Action](https://github.com/HCookie/organizational_contributors)_\n"

/-- `write_markdown_file`: the full byte content written to the file. -/
def write_markdown_file (start_date end_date organization : String) (repository : Repo)
    (table : List (String × String)) (summary_table : String) : String :=
  docHeader start_date end_date organization repository
    ++ summary_table
    ++ (if table.length = 1 ∧ (table.map Prod.fst).contains "Independent" then
          (table.lookup "Independent").getD ""
        else sectionsFor table)
    ++ docFooter

/-- `write_to_markdown`: build the tables and the summary, then the document
content; an exception from `get_contributor_table` aborts before any write. -/
def write_to_markdown (collaborators : List ContributorStats)
    (start_date end_date organization : String) (repository : Repo)
    (sponsor_info link_to_profile : String) (show_organizations_list : List String) :
    Except PyErr String :=
  match get_contributor_table collaborators start_date end_date organization repository
      sponsor_info link_to_profile show_organizations_list with
  | Except.error e => Except.error e
  | Except.ok (table, total_contributions) =>
      Except.ok (write_markdown_file start_date end_date organization repository table
        (get_summary_table collaborators start_date end_date total_contributions))

/-- One invocation of `write_to_markdown` acting on a file system (a map from
path to content): on success the target is overwritten, on an exception
nothing is written. -/
def run_write (fs : String → Option String) (filename : String)
    (collaborators : List ContributorStats)
    (start_date end_date organization : String) (repository : Repo)
    (sponsor_info link_to_profile : String) (show_organizations_list : List String) :
    String → Option String :=
  match write_to_markdown collaborators start_date end_date organization repository
      sponsor_info link_to_profile show_organizations_list with
  | Except.error _ => fs
  | Except.ok content => fun f => if f = filename then some content else fs f

/-- Sum of `contribution_count` over a contributor list. -/
def sumContrib (collaborators : List ContributorStats) : Nat :=
  (collaborators.map (fun c => c.contribution_count)).sum

/-! ### Specification-side definitions

These follow the wording of the specification; the theorems below compare
them with the code-derived definitions above. -/

/-- Following the spec's words on grouping: the first organization in the
contributor's sequence that is in the allow-list (or, when `"all"` is in the
allow-list, simply the first organization); `"Independent"` when no
organization matches or the sequence is empty. -/
def specGroup (organizations show_organizations_list : List String) : String :=
  if show_organizations_list.contains "all" then
    match organizations with
    | [] => "Independent"
    | o :: _ => o
  else
    match organizations.find? (fun o => show_organizations_list.contains o) with
    | some o => o
    | none => "Independent"

/-- Following the spec's words on the commit-reference cell: one markdown
link for a single URL, whose text is the `<org>/<repo>` path segment between
`github.com/` and `/commits`; `none` when the URL lacks that shape. -/
def specLink (url : String) : Option String :=
  let u := pyStrip url
  ((pySplit ((pySplit u "/commits").headD "") "github.com/").get? 1).map
    (fun name => "[" ++ name ++ "](" ++ u ++ ")")

/-- The links of all URLs in a list, `none` as soon as one is malformed. -/
def specLinks : List String → Option (List String)
  | [] => some []
  | u :: us =>
    match specLink u, specLinks us with
    | some l, some ls => some (l :: ls)
    | _, _ => none

/-- Following the spec's words: the comma-separated `commit_url` split into
individual URLs, each rendered as a markdown link, joined with `", "` with
the trailing separator kept. -/
def specCommitCell (commit_url : String) : Option String :=
  (specLinks (pySplit commit_url ",")).map
    (fun links => strConcat (links.map (fun l => l ++ ", ")))

/-- The rows stored under key `g` in the grouping map. -/
def rowsOf (G : List (String × List String)) (g : String) : List String :=
  match G with
  | [] => []
  | (k, rows) :: rest => if k = g then rows else rowsOf rest g

/-- The commit-reference cell a row gets, as an exception-carrying value:
the link-splitting result when the branch is active (organization filter or
more than one repository after normalizing a scalar to a one-element list),
the raw `commit_url` otherwise. -/
def specCellE (organization : String) (r : Repo) (c : ContributorStats) :
    Except PyErr String :=
  if organization ≠ "" ∨ 1 < r.asList.length then commitCell c.commit_url
  else Except.ok c.commit_url

/-- Following the spec's words for C3, with the malformed case as `none`. -/
def specCellC3 (organization : String) (r : Repo) (c : ContributorStats) :
    Option String :=
  if organization ≠ "" ∨ 1 < r.asList.length then specCommitCell c.commit_url
  else some c.commit_url

/-- The grouping map built row by row from the spec-side cells. -/
def rowsSpecC3 (organization : String) (r : Repo) (cols sol : List String)
    (lp : String) (l : List ContributorStats) : List (String × List String) :=
  l.foldl (fun G c => addToGroup G (groupFor c.organizations sol)
    (rowFor cols lp c ((specCellC3 organization r c).getD ""))) []

/-- The loop, rephrased over the uniform spec cells (groups only). -/
def specFold (o lp : String) (cols sol : List String) (r : Repo) :
    List ContributorStats → List (String × List String)
      → Except PyErr (List (String × List String))
  | [], G => Except.ok G
  | c :: cs, G =>
    match specCellE o r c with
    | Except.error e => Except.error e
    | Except.ok cu => specFold o lp cols sol r cs
        (addToGroup G (groupFor c.organizations sol) (rowFor cols lp c cu))

/-! ### Sample data for witnesses -/

def sampleA : ContributorStats :=
  { username := "a", contribution_count := 3, new_contributor := true,
    commit_url := "https://github.com/o/r/commits", organizations := ["o"],
    sponsor_info := "" }

def sampleNew : ContributorStats :=
  { username := "n", contribution_count := 1, new_contributor := true,
    commit_url := "u", organizations := [], sponsor_info := "" }

def sampleOld : ContributorStats :=
  { username := "m", contribution_count := 3, new_contributor := false,
    commit_url := "u", organizations := [], sponsor_info := "" }

def sample4 : List ContributorStats := [sampleNew, sampleOld, sampleOld, sampleOld]

def sampleBad : ContributorStats :=
  { username := "b", contribution_count := 2, new_contributor := false,
    commit_url := "badurl", organizations := [], sponsor_info := "" }

/-- 4000 contributors of which 3 are new: 3/4000*100 = 0.075 exactly, and the
double-precision chain lands strictly below it. -/
def c4big : List ContributorStats :=
  List.replicate 3 sampleNew ++ List.replicate 3997 sampleOld

/-! ### Helper lemmas -/

theorem truthy_length_le {r : Repo} (h : r.truthy = false) : r.asList.length ≤ 1 := by
  cases r with
  | scalar v => simp [Repo.asList]
  | list l =>
    cases l with
    | nil => simp [Repo.asList]
    | cons a as => simp [Repo.truthy] at h

theorem truthy_asList_ne_nil {r : Repo} (h : r.truthy = true) : r.asList ≠ [] := by
  cases r with
  | scalar v => simp [Repo.asList]
  | list l =>
    cases l with
    | nil => simp [Repo.truthy] at h
    | cons a as => simp [Repo.asList]

theorem normalize_asList (r : Repo) : r.normalize.asList = r.asList := rfl

theorem normalize_truthy (r : Repo) : r.normalize.truthy = !r.asList.isEmpty := by
  cases r <;> rfl

theorem groupFor_eq_specGroup (orgs sl : List String) :
    groupFor orgs sl = specGroup orgs sl := by
  unfold groupFor specGroup
  by_cases h : sl.contains "all" = true
  · simp only [h, Bool.or_true, if_pos]
    cases orgs with
    | nil => simp
    | cons o os => simp [List.find?]
  · simp only [h, Bool.or_false, if_neg]
    rfl

/-- Inversion of a successful `processCollaborator` step. -/
theorem processCollaborator_ok {o lp : String} {cols sol : List String}
    {st : LoopState} {c : ContributorStats} {st' : LoopState}
    (h : processCollaborator o lp cols sol st c = Except.ok st') :
    st'.total = st.total + c.contribution_count ∧
    st'.repo = st.repo.normalize ∧
    ∃ cu, st'.commit_urls = some cu ∧
      st'.groups = addToGroup st.groups (groupFor c.organizations sol)
        (rowFor cols lp c cu) := by
  simp only [processCollaborator] at h
  repeat' split at h
  all_goals first
    | exact Except.noConfusion h
    | (cases h; exact ⟨rfl, rfl, _, rfl, rfl⟩)

/-- Accumulated total over a successful run of the loop. -/
theorem runLoop_ok_total {l : List ContributorStats} {o lp : String}
    {cols sol : List String} {st st' : LoopState}
    (h : runLoop l o lp cols sol st = Except.ok st') :
    st'.total = st.total + sumContrib l := by
  induction l generalizing st with
  | nil =>
    unfold runLoop at h
    cases h
    simp [sumContrib]
  | cons c cs ih =>
    unfold runLoop at h
    split at h
    · exact absurd h (by simp)
    · rename_i st1 hpc
      have h1 := (processCollaborator_ok hpc).1
      have h2 := ih h
      simp [sumContrib, List.map_cons, List.sum_cons] at h2 ⊢
      omega

/-! ### Claim C1 -/

/-- C1: the total-contributions value returned by `get_contributor_table`
(and passed on to the summary table) equals the sum of `contribution_count`
over all contributors in the list. -/
theorem c1_total_contributions_eq_sum
    (collaborators : List ContributorStats) (sd ed org : String) (r : Repo)
    (si lp : String) (sol : List String) (tables : List (String × String)) (total : Nat)
    (h : get_contributor_table collaborators sd ed org r si lp sol
        = Except.ok (tables, total)) :
    total = sumContrib collaborators
    ∧ write_to_markdown collaborators sd ed org r si lp sol
      = Except.ok (write_markdown_file sd ed org r tables
          (get_summary_table collaborators sd ed (sumContrib collaborators))) := by
  have hts : total = sumContrib collaborators := by
    simp only [get_contributor_table] at h
    split at h
    · exact Except.noConfusion h
    · rename_i st hrun
      cases h
      simpa using runLoop_ok_total hrun
  refine ⟨hts, ?_⟩
  simp only [write_to_markdown, h, hts]

theorem c1_witness : (3 : Nat) = sumContrib [sampleA] :=
  (c1_total_contributions_eq_sum [sampleA] "" "" "" (Repo.scalar (some "r")) "" "" []
    _ 3 rfl).1

/-! ### Claim C10 -/

/-- C10: when both `organization` and `repository` are falsy and the
contributor list is non-empty, `get_contributor_table` raises
`UnboundLocalError` on the first row (so the raw-`commit_url` fallback is
unreachable in this configuration). -/
theorem c10_unbound_local
    (c : ContributorStats) (cs : List ContributorStats) (sd ed : String) (r : Repo)
    (si lp : String) (sol : List String) (hr : r.truthy = false) :
    get_contributor_table (c :: cs) sd ed "" r si lp sol
      = Except.error PyErr.unboundLocalError := by
  have hpc : processCollaborator "" lp (columnsFor sd ed si) sol
      { total := 0, repo := r, commit_urls := none, groups := [] } c
      = Except.error PyErr.unboundLocalError := by
    cases r with
    | scalar v =>
      cases v with
      | none =>
        simp [processCollaborator, Repo.truthy, Repo.normalize, Repo.pyLen, Repo.asList]
      | some s =>
        have hs : s = "" := by
          by_contra hne
          simp [Repo.truthy, hne] at hr
        subst hs
        simp [processCollaborator, Repo.truthy, Repo.normalize, Repo.pyLen, Repo.asList]
    | list l =>
      have hl : l = [] := by
        cases l with
        | nil => rfl
        | cons x xs => simp [Repo.truthy] at hr
      subst hl
      simp [processCollaborator, Repo.truthy, Repo.normalize, Repo.pyLen, Repo.asList]
  simp only [get_contributor_table, runLoop, hpc]

theorem c10_witness : Repo.truthy (Repo.scalar none) = false ∧
    get_contributor_table [sampleA] "" "" "" (Repo.scalar none) "" "" []
      = Except.error PyErr.unboundLocalError :=
  ⟨rfl, c10_unbound_local sampleA [] "" "" (Repo.scalar none) "" "" [] rfl⟩

/-! ### Claim C9 -/

/-- C9: report generation is deterministic and idempotent — re-running
`write_to_markdown` with identical inputs leaves the file system with
byte-identical content for the target (and everything else untouched). -/
theorem c9_idempotent (fs : String → Option String) (filename : String)
    (collaborators : List ContributorStats) (sd ed org : String) (r : Repo)
    (si lp : String) (sol : List String) (f : String) :
    run_write (run_write fs filename collaborators sd ed org r si lp sol)
        filename collaborators sd ed org r si lp sol f
      = run_write fs filename collaborators sd ed org r si lp sol f := by
  unfold run_write
  cases h : write_to_markdown collaborators sd ed org r si lp sol with
  | error e => rfl
  | ok content =>
    by_cases hf : f = filename <;> simp [hf]

/-! ### Claim C4 -/

/-- C4 (amended): in range mode the `% New Contributors` value is
(new contributors / total contributors) × 100 computed in IEEE-754 double
arithmetic and rounded to two decimal places by Python `round` — which can
differ from exact decimal rounding where the double representation crosses a
boundary; it is `0` for the empty list; and for 4 contributors of which 1 is
new the summary renders `25.0`, agreeing with the exact formula there. -/
theorem c4_percentage :
    (∀ l : List ContributorStats, 0 < l.length →
      pctHundredths l
        = round2dec (mulF100
            (pyDiv (l.filter (fun x => x.new_contributor)).length l.length)))
    ∧ (∀ sd ed : String, sd ≠ "" → ed ≠ "" →
        get_summary_table [] sd ed 0
          = "| Total Contributors | Total Contributions | % New Contributors |\n| --- | --- | --- |\n| 0 | 0 | 0% |\n\n")
    ∧ pctHundredths sample4 = 2500
    ∧ pyRound2 ((((sample4.filter (fun x => x.new_contributor)).length : ℚ)
        / (sample4.length : ℚ)) * 100) = 25
    ∧ get_summary_table sample4 "2024-01-01" "2024-03-31" 10
      = "| Total Contributors | Total Contributions | % New Contributors |\n| --- | --- | --- |\n| 4 | 10 | 25.0% |\n\n" := by
  refine ⟨fun l _ => rfl, ?_, by decide, ?_, by decide⟩
  · intro sd ed hsd hed
    unfold get_summary_table
    rw [if_pos ⟨hsd, hed⟩]
    rfl
  · have harg : (((sample4.filter (fun x => x.new_contributor)).length : ℚ)
        / (sample4.length : ℚ)) * 100 = 25 := by
      norm_num [sample4, sampleNew, sampleOld]
    rw [harg]
    unfold pyRound2 rhe
    rw [show (25 : ℚ) * 100 = ((2500 : ℤ) : ℚ) by norm_num, Int.fract_intCast]
    norm_num

theorem filter_replicate_true {α : Type} (f : α → Bool) (a : α) (n : Nat)
    (h : f a = true) : (List.replicate n a).filter f = List.replicate n a := by
  induction n with
  | zero => rfl
  | succ k ih => simp [List.replicate_succ, List.filter_cons, h, ih]

theorem filter_replicate_false {α : Type} (f : α → Bool) (a : α) (n : Nat)
    (h : f a = false) : (List.replicate n a).filter f = [] := by
  induction n with
  | zero => rfl
  | succ k ih => simp [List.replicate_succ, List.filter_cons, h, ih]

set_option maxRecDepth 100000 in
theorem c4_counterexample :
    pctHundredths c4big = 7
    ∧ get_summary_table c4big "a" "b" 0
      = "| Total Contributors | Total Contributions | % New Contributors |\n| --- | --- | --- |\n| 4000 | 0 | 0.07% |\n\n"
    ∧ pyRound2 ((((c4big.filter (fun x => x.new_contributor)).length : ℚ)
        / (c4big.length : ℚ)) * 100) = 8 / 100
    ∧ ((round (((((c4big.filter (fun x => x.new_contributor)).length : ℚ)
        / (c4big.length : ℚ)) * 100) * 100) : ℚ) / 100) = 8 / 100 := by
  have h1 : (c4big.filter (fun x => x.new_contributor)).length = 3 := by
    rw [show c4big = List.replicate 3 sampleNew ++ List.replicate 3997 sampleOld from rfl,
      List.filter_append,
      filter_replicate_true (fun x => x.new_contributor) sampleNew 3 (by decide),
      filter_replicate_false (fun x => x.new_contributor) sampleOld 3997 (by decide)]
    rfl
  have h2 : c4big.length = 4000 := by
    rw [show c4big = List.replicate 3 sampleNew ++ List.replicate 3997 sampleOld from rfl,
      List.length_append, List.length_replicate, List.length_replicate]
  have hp : pctHundredths c4big = 7 := by
    simp only [pctHundredths]
    rw [h1, h2]
    decide
  have harg : (((3 : ℕ) : ℚ) / ((4000 : ℕ) : ℚ)) * 100 = 3 / 40 := by
    norm_num
  have hfl : (⌊(15 / 2 : ℚ)⌋ : ℤ) = 7 := by
    rw [Int.floor_eq_iff]
    constructor <;> norm_num
  have hfr : Int.fract (15 / 2 : ℚ) = 1 / 2 := by
    unfold Int.fract
    rw [hfl]
    norm_num
  refine ⟨hp, ?_, ?_, ?_⟩
  · unfold get_summary_table
    rw [if_pos ⟨by decide, by decide⟩]
    rw [if_pos (by rw [h2]; norm_num : 0 < c4big.length)]
    rw [h2, hp]
    rfl
  · rw [h1, h2, harg]
    unfold pyRound2 rhe
    rw [show (3 / 40 : ℚ) * 100 = 15 / 2 by norm_num]
    rw [if_pos hfr]
    rw [show (15 / 2 / 2 : ℚ) = 15 / 4 by norm_num]
    have hr4 : round (15 / 4 : ℚ) = 4 := by
      rw [round_eq, show (15 / 4 : ℚ) + 1 / 2 = 17 / 4 by norm_num]
      rw [Int.floor_eq_iff]
      constructor <;> norm_num
    rw [hr4]
    norm_num
  · rw [h1, h2, harg]
    rw [show (3 / 40 : ℚ) * 100 = 15 / 2 by norm_num]
    have hr8 : round (15 / 2 : ℚ) = 8 := by
      rw [round_eq, show (15 / 2 : ℚ) + 1 / 2 = 8 by norm_num]
      rw [show (8 : ℚ) = ((8 : ℤ) : ℚ) by norm_num]
      exact Int.floor_intCast 8
    rw [hr8]
    norm_num

theorem c4_witness :
    pctHundredths sample4
      = round2dec (mulF100 (pyDiv (sample4.filter (fun x => x.new_contributor)).length
          sample4.length))
    ∧ get_summary_table [] "a" "b" 0
      = "| Total Contributors | Total Contributions | % New Contributors |\n| --- | --- | --- |\n| 0 | 0 | 0% |\n\n" :=
  ⟨c4_percentage.1 sample4 (by decide), c4_percentage.2.1 "a" "b" (by decide) (by decide)⟩

/-! ### Claim C7 -/

/-- C7: when the sponsor column is requested (`sponsor_info == "true"`), each
row carries the sponsor cell: the literal `not sponsorable` when the
contributor's `sponsor_info` is empty, otherwise the markdown link
`[Sponsor Link](url)`. -/
theorem c7_sponsor_cell (sd ed si lp : String) (c : ContributorStats) (cu : String)
    (hsi : si = "true") :
    ∃ a : String, rowFor (columnsFor sd ed si) lp c cu
      = a ++ (if c.sponsor_info == "" then " not sponsorable |"
              else " [Sponsor Link](" ++ c.sponsor_info ++ ") |")
          ++ " " ++ cu ++ " |\n" := by
  subst hsi
  by_cases hd : sd ≠ "" ∧ ed ≠ ""
  · have hcols : columnsFor sd ed "true"
        = ["Username", "All Time Contribution Count", "New Contributor", "Sponsor URL",
           "Commits between " ++ sd ++ " and " ++ ed] := by
      simp [columnsFor, hd]
    have h1 : (["Username", "All Time Contribution Count", "New Contributor", "Sponsor URL",
        "Commits between " ++ sd ++ " and " ++ ed]).contains "New Contributor" = true := rfl
    have h2 : (["Username", "All Time Contribution Count", "New Contributor", "Sponsor URL",
        "Commits between " ++ sd ++ " and " ++ ed]).contains "Sponsor URL" = true := rfl
    refine ⟨"| " ++ (if lp == "false" then "" else "@") ++ c.username ++ " | "
        ++ toString c.contribution_count ++ " |" ++ " " ++ pyBool c.new_contributor ++ " |", ?_⟩
    rw [hcols]
    simp only [rowFor, h1, h2, if_true]
  · have hcols : columnsFor sd ed "true"
        = ["Username", "All Time Contribution Count", "Sponsor URL", "All Commits"] := by
      simp [columnsFor, hd]
    refine ⟨"| " ++ (if lp == "false" then "" else "@") ++ c.username ++ " | "
        ++ toString c.contribution_count ++ " |", ?_⟩
    rw [hcols]
    simp only [rowFor]
    rfl

theorem c7_witness :
    ("true" : String) = "true" ∧
    ∃ a : String, rowFor (columnsFor "" "" "true") "" sampleA "cell"
      = a ++ (if sampleA.sponsor_info == "" then " not sponsorable |"
              else " [Sponsor Link](" ++ sampleA.sponsor_info ++ ") |")
          ++ " " ++ "cell" ++ " |\n" :=
  ⟨rfl, c7_sponsor_cell "" "" "true" "" sampleA "cell" rfl⟩

/-! ### Claim C2 -/

theorem rowsOf_addToGroup (G : List (String × List String)) (g g' row : String) :
    rowsOf (addToGroup G g row) g'
      = if g' = g then rowsOf G g ++ [row] else rowsOf G g' := by
  induction G with
  | nil =>
    by_cases h : g' = g
    · subst h; simp [addToGroup, rowsOf]
    · have h2 : ¬(g = g') := fun hh => h hh.symm
      simp [addToGroup, rowsOf, h, h2]
  | cons p rest ih =>
    obtain ⟨k, rows⟩ := p
    by_cases hg : g' = g
    · subst hg
      by_cases hk : k = g'
      · subst hk
        simp [addToGroup, rowsOf]
      · simp [addToGroup, rowsOf, hk, ih]
    · by_cases hk : k = g
      · have hkg : ¬(k = g') := fun hh => hg (hh.symm.trans hk)
        have hggp : ¬(g = g') := fun hh => hg hh.symm
        simp [addToGroup, rowsOf, hk, hg, hkg, hggp]
      · by_cases hkg : k = g'
        · simp [addToGroup, rowsOf, hk, hg, hkg]
        · simp [addToGroup, rowsOf, hk, hg, hkg, ih]

theorem keys_addToGroup (G : List (String × List String)) (g row : String) :
    (addToGroup G g row).map Prod.fst
      = if g ∈ G.map Prod.fst then G.map Prod.fst else G.map Prod.fst ++ [g] := by
  induction G with
  | nil => simp [addToGroup]
  | cons p rest ih =>
    obtain ⟨k, rows⟩ := p
    by_cases hk : k = g
    · subst hk; simp [addToGroup]
    · have hgk : ¬(g = k) := fun hh => hk hh.symm
      by_cases hmem : g ∈ rest.map Prod.fst
      · simp [addToGroup, hk, ih, hmem, hgk, List.mem_cons]
      · simp [addToGroup, hk, ih, hmem, hgk, List.mem_cons]

theorem nodup_addToGroup {G : List (String × List String)} {g row : String}
    (h : (G.map Prod.fst).Nodup) : ((addToGroup G g row).map Prod.fst).Nodup := by
  rw [keys_addToGroup]
  split
  · exact h
  · rename_i hmem
    simp [List.nodup_append, h, hmem]

/-- Per-group row counts over a successful run of the collaborator loop. -/
theorem runLoop_ok_counts {l : List ContributorStats} {o lp : String}
    {cols sol : List String} {st st' : LoopState}
    (h : runLoop l o lp cols sol st = Except.ok st') (g : String) :
    (rowsOf st'.groups g).length
      = (rowsOf st.groups g).length
        + (l.filter (fun c => specGroup c.organizations sol == g)).length := by
  induction l generalizing st with
  | nil =>
    unfold runLoop at h
    cases h
    simp
  | cons c cs ih =>
    unfold runLoop at h
    split at h
    · exact Except.noConfusion h
    · rename_i st1 hpc
      obtain ⟨-, -, cu, -, hgr⟩ := processCollaborator_ok hpc
      have hrec := ih h
      rw [hrec, hgr, rowsOf_addToGroup, groupFor_eq_specGroup]
      by_cases hg : g = specGroup c.organizations sol
      · have hg' : (specGroup c.organizations sol == g) = true := by
          simp [hg.symm]
        simp [hg, hg', List.filter_cons]
        omega
      · have hg' : (specGroup c.organizations sol == g) = false := by
          simp
          exact fun hh => hg hh.symm
        simp [hg, hg', List.filter_cons]

/-- Keys stay duplicate-free over a successful run. -/
theorem runLoop_ok_nodup {l : List ContributorStats} {o lp : String}
    {cols sol : List String} {st st' : LoopState}
    (h : runLoop l o lp cols sol st = Except.ok st')
    (hn : (st.groups.map Prod.fst).Nodup) : (st'.groups.map Prod.fst).Nodup := by
  induction l generalizing st with
  | nil =>
    unfold runLoop at h
    cases h
    exact hn
  | cons c cs ih =>
    unfold runLoop at h
    split at h
    · exact Except.noConfusion h
    · rename_i st1 hpc
      obtain ⟨-, -, cu, -, hgr⟩ := processCollaborator_ok hpc
      exact ih h (by rw [hgr]; exact nodup_addToGroup hn)

/-- C2: every contributor's row lands in exactly one group — the first
organization of the contributor that is in the allow-list (simply the first
organization when the allow-list holds `"all"`), else `"Independent"` — with
no duplication and no omission: for every group name, the number of stored
rows equals the number of contributors the spec's rule assigns there, and
group keys are unique. -/
theorem c2_grouping (l : List ContributorStats) (o lp sd ed si : String) (r : Repo)
    (sol : List String) (st : LoopState)
    (h : runLoop l o lp (columnsFor sd ed si) sol
        { total := 0, repo := r, commit_urls := none, groups := [] } = Except.ok st) :
    (∀ g, (rowsOf st.groups g).length
        = (l.filter (fun c => specGroup c.organizations sol == g)).length)
    ∧ (st.groups.map Prod.fst).Nodup := by
  constructor
  · intro g
    have := runLoop_ok_counts h g
    simpa [rowsOf] using this
  · exact runLoop_ok_nodup h (by simp)

theorem c2_witness :
    (rowsOf [("o", ["| @a | 3 | https://github.com/o/r/commits |\n"])] "o").length
      = ([sampleA].filter (fun c => specGroup c.organizations ["all"] == "o")).length :=
  (c2_grouping [sampleA] "" "" "" "" "" (Repo.scalar (some "r")) ["all"]
      { total := 3, repo := Repo.list [some "r"],
        commit_urls := some "https://github.com/o/r/commits",
        groups := [("o", ["| @a | 3 | https://github.com/o/r/commits |\n"])] } rfl).1 "o"

/-! ### Claim C5 -/

theorem strConcat_append (xs ys : List String) :
    strConcat (xs ++ ys) = strConcat xs ++ strConcat ys := by
  induction xs with
  | nil => rfl
  | cons x xs ih => simp [strConcat, ih, String.append_assoc]

theorem lookup_eq_of_mem {table : List (String × String)} {g b : String}
    (hn : (table.map Prod.fst).Nodup) (hm : (g, b) ∈ table) :
    table.lookup g = some b := by
  induction table with
  | nil => cases hm
  | cons p rest ih =>
    obtain ⟨k, v⟩ := p
    rw [List.map_cons] at hn
    have hk : k ∉ rest.map Prod.fst := (List.nodup_cons.mp hn).1
    have hnt : (rest.map Prod.fst).Nodup := (List.nodup_cons.mp hn).2
    rcases List.mem_cons.mp hm with h | h
    · injection h with h1 h2
      subst h1; subst h2
      simp [List.lookup]
    · have hgk : ¬(g = k) := by
        intro hgk
        subst hgk
        exact hk (List.mem_map_of_mem Prod.fst h)
      have hb : (g == k) = false := by simp [hgk]
      simp [List.lookup, hb]
      exact ih hnt h

/-- C5: document sections (amended: the `Independent` heading carries a
trailing space, `## Independent \n`). When the table map holds exactly the
single group `Independent`, only its table is written, with no heading;
otherwise every non-`Independent` group is written as a level-2 heading
linking to `https://github.com/<org>` followed by its table, and
`Independent` comes last, directly before the footer, with the plain
heading `## Independent ` (trailing space, no link). -/
theorem c5_sections :
    (∀ sd ed org r t s, write_markdown_file sd ed org r [("Independent", t)] s
        = docHeader sd ed org r ++ s ++ t ++ docFooter)
    ∧ (∀ sd ed org r table s g b,
        (table.map Prod.fst).Nodup →
        ¬(table.length = 1 ∧ ((table.map Prod.fst).contains "Independent" = true)) →
        (g, b) ∈ table → g ≠ "Independent" →
        ∃ pre post, write_markdown_file sd ed org r table s
          = pre ++ ("## [" ++ g ++ "](https://github.com/" ++ g ++ ")\n" ++ b) ++ post)
    ∧ (∀ sd ed org r table s,
        ¬(table.length = 1 ∧ ((table.map Prod.fst).contains "Independent" = true)) →
        "Independent" ∈ table.map Prod.fst →
        ∃ pre, write_markdown_file sd ed org r table s
          = pre ++ ("## Independent \n" ++ ((table.lookup "Independent").getD ""))
              ++ docFooter) := by
  refine ⟨?_, ?_, ?_⟩
  · intro sd ed org r t s
    rfl
  · intro sd ed org r table s g b hn hcond hm hne
    simp only [write_markdown_file, sectionsFor]
    rw [if_neg hcond]
    have hgk : g ∈ table.map Prod.fst := List.mem_map_of_mem Prod.fst hm
    have hlook : table.lookup g = some b := lookup_eq_of_mem hn hm
    by_cases hc : (table.map Prod.fst).contains "Independent" = true
    · rw [if_pos hc]
      have hmem2 : g ∈ (table.map Prod.fst).erase "Independent" ++ ["Independent"] :=
        List.mem_append_left _ ((List.mem_erase_of_ne hne).mpr hgk)
      obtain ⟨u, v, huv⟩ := List.append_of_mem hmem2
      rw [huv, List.map_append, List.map_cons, strConcat_append]
      refine ⟨docHeader sd ed org r ++ s
          ++ strConcat (u.map (fun org => orgTitle org ++ ((table.lookup org).getD ""))),
        strConcat (v.map (fun org => orgTitle org ++ ((table.lookup org).getD "")))
          ++ docFooter, ?_⟩
      simp [strConcat, orgTitle, hne, hlook, String.append_assoc]
    · rw [if_neg hc]
      obtain ⟨u, v, huv⟩ := List.append_of_mem hgk
      rw [huv, List.map_append, List.map_cons, strConcat_append]
      refine ⟨docHeader sd ed org r ++ s
          ++ strConcat (u.map (fun org => orgTitle org ++ ((table.lookup org).getD ""))),
        strConcat (v.map (fun org => orgTitle org ++ ((table.lookup org).getD "")))
          ++ docFooter, ?_⟩
      simp [strConcat, orgTitle, hne, hlook, String.append_assoc]
  · intro sd ed org r table s hcond hmem
    simp only [write_markdown_file, sectionsFor]
    rw [if_neg hcond]
    have hc : (table.map Prod.fst).contains "Independent" = true := by
      simpa using hmem
    rw [if_pos hc, List.map_append, List.map_cons, strConcat_append]
    refine ⟨docHeader sd ed org r ++ s
        ++ strConcat (((table.map Prod.fst).erase "Independent").map
            (fun org => orgTitle org ++ ((table.lookup org).getD ""))), ?_⟩
    have hti : orgTitle "Independent" = "## Independent \n" := rfl
    simp [strConcat, hti, String.append_assoc, String.append_empty]

set_option maxRecDepth 100000 in
theorem c5_counterexample :
    ¬(("## Independent\n".data)
        <:+: ((write_markdown_file "" "" "" (Repo.scalar none)
            [("o", "X"), ("Independent", "Y")] "S").data))
    ∧ (("## Independent \n".data)
        <:+: ((write_markdown_file "" "" "" (Repo.scalar none)
            [("o", "X"), ("Independent", "Y")] "S").data)) := by
  constructor
  · decide
  · decide

theorem c5_witness :
    (write_markdown_file "a" "b" "" (Repo.scalar none) [("Independent", "T")] "S"
      = docHeader "a" "b" "" (Repo.scalar none) ++ "S" ++ "T" ++ docFooter)
    ∧ (∃ pre post, write_markdown_file "" "" "" (Repo.scalar none)
          [("o", "X"), ("Independent", "Y")] "S"
        = pre ++ ("## [" ++ "o" ++ "](https://github.com/" ++ "o" ++ ")\n" ++ "X") ++ post)
    ∧ (∃ pre, write_markdown_file "" "" "" (Repo.scalar none)
          [("o", "X"), ("Independent", "Y")] "S"
        = pre ++ ("## Independent \n"
            ++ (([("o", "X"), ("Independent", "Y")].lookup "Independent").getD ""))
            ++ docFooter) :=
  ⟨c5_sections.1 "a" "b" "" (Repo.scalar none) "T" "S",
   c5_sections.2.1 "" "" "" (Repo.scalar none) [("o", "X"), ("Independent", "Y")] "S"
     "o" "X" (by decide) (by decide) (by decide) (by decide),
   c5_sections.2.2 "" "" "" (Repo.scalar none) [("o", "X"), ("Independent", "Y")] "S"
     (by decide) (by decide)⟩

/-! ### Claim C6 -/

/-- C6 (amended): for the empty contributor list, in range mode and out of
it, report generation is not an error — the summary shows `0` contributors
and `0` contributions, plus `0%` new in range mode — but the grouping map is
empty, so no group tables (and in particular no table header lines) are
emitted: the document is exactly header, summary and footer. -/
theorem c6_empty_input (sd ed org : String) (r : Repo) (si lp : String)
    (sol : List String) :
    get_contributor_table [] sd ed org r si lp sol = Except.ok ([], 0)
    ∧ get_summary_table [] sd ed 0
        = (if sd ≠ "" ∧ ed ≠ "" then
            "| Total Contributors | Total Contributions | % New Contributors |\n| --- | --- | --- |\n| 0 | 0 | 0% |\n\n"
          else
            "| Total Contributors | Total Contributions |\n| --- | --- |\n| 0 | 0 |\n\n")
    ∧ write_to_markdown [] sd ed org r si lp sol
        = Except.ok (docHeader sd ed org r ++ get_summary_table [] sd ed 0 ++ docFooter) := by
  have h1 : get_contributor_table [] sd ed org r si lp sol = Except.ok ([], 0) := rfl
  have h2 : get_summary_table [] sd ed 0
      = (if sd ≠ "" ∧ ed ≠ "" then
          "| Total Contributors | Total Contributions | % New Contributors |\n| --- | --- | --- |\n| 0 | 0 | 0% |\n\n"
        else
          "| Total Contributors | Total Contributions |\n| --- | --- |\n| 0 | 0 |\n\n") := by
    by_cases hd : sd ≠ "" ∧ ed ≠ ""
    · rw [if_pos hd]
      simp only [get_summary_table]
      rw [if_pos hd]
      rfl
    · rw [if_neg hd]
      simp only [get_summary_table]
      rw [if_neg hd]
      rfl
  refine ⟨h1, h2, ?_⟩
  simp only [write_to_markdown, h1, write_markdown_file]
  rw [if_neg (by simp)]
  simp [sectionsFor, strConcat, String.append_empty, String.append_assoc]

set_option maxRecDepth 100000 in
theorem c6_counterexample :
    write_to_markdown [] "a" "b" "" (Repo.scalar none) "" "" []
      = Except.ok "# Contributors\n\n- Date range for contributor list:  a to b\n\n| Total Contributors | Total Contributions | % New Contributors |\n| --- | --- | --- |\n| 0 | 0 | 0% |\n\n\n _this file was generated by the [Organizational Contributors GitHub Action](https://github.com/HCookie/organizational_contributors)_\n"
    ∧ write_to_markdown [] "" "" "" (Repo.scalar none) "" "" []
      = Except.ok "# Contributors\n\n\n| Total Contributors | Total Contributions |\n| --- | --- |\n| 0 | 0 |\n\n\n _this file was generated by the [Organizational Contributors GitHub Action](https://github.com/HCookie/organizational_contributors)_\n"
    ∧ ¬(("| Username".data)
        <:+: ("# Contributors\n\n- Date range for contributor list:  a to b\n\n| Total Contributors | Total Contributions | % New Contributors |\n| --- | --- | --- |\n| 0 | 0 | 0% |\n\n\n _this file was generated by the [Organizational Contributors GitHub Action](https://github.com/HCookie/organizational_contributors)_\n".data)) := by
  refine ⟨rfl, rfl, ?_⟩
  decide

/-! ### String-splitting lemmas for C3 and C8 -/

theorem stripPre_some {p : List Char} : ∀ {l r : List Char},
    stripPre p l = some r → l = p ++ r := by
  induction p with
  | nil =>
    intro l r h
    simp only [stripPre, Option.some.injEq] at h
    simp [h]
  | cons a as ih =>
    intro l r h
    cases l with
    | nil => exact Option.noConfusion h
    | cons c cs =>
      by_cases hc : c = a
      · subst hc
        simp only [stripPre, if_pos rfl] at h
        simp [ih h]
      · simp only [stripPre, if_neg hc] at h
        exact Option.noConfusion h

theorem splitChF_ne_nil (sep : List Char) (fuel : Nat) (l : List Char) :
    splitChF sep fuel l ≠ [] := by
  cases fuel with
  | zero => simp [splitChF]
  | succ n =>
    cases l with
    | nil => simp [splitChF]
    | cons c cs =>
      simp only [splitChF]
      split <;> simp

theorem splitChF_head_isPre (sep : List Char) :
    ∀ (fuel : Nat) (l : List Char), (splitChF sep fuel l).headD [] <+: l := by
  intro fuel
  induction fuel with
  | zero => intro l; simp [splitChF]
  | succ n ih =>
    intro l
    cases l with
    | nil => simp [splitChF]
    | cons c cs =>
      simp only [splitChF]
      cases hs : stripPre sep (c :: cs) with
      | some rest => simp
      | none =>
        simp only [List.headD_cons]
        exact List.cons_prefix_cons.mpr ⟨rfl, ih cs⟩

theorem splitChF_no_occurrence {sep : List Char} :
    ∀ (fuel : Nat) (l : List Char), ¬(sep <:+: l) → splitChF sep fuel l = [l] := by
  intro fuel
  induction fuel with
  | zero => intro l h; rfl
  | succ n ih =>
    intro l h
    cases l with
    | nil => rfl
    | cons c cs =>
      simp only [splitChF]
      cases hs : stripPre sep (c :: cs) with
      | some rest =>
        exact absurd ⟨[], rest, by rw [stripPre_some hs]; simp⟩ h
      | none =>
        have hcs : ¬(sep <:+: cs) := fun hh => h (List.infix_cons hh)
        rw [ih cs hcs]
        simp

theorem pyStrip_data_isInfix (s : String) : (pyStrip s).data <:+: s.data := by
  have h1 : s.data.dropWhile Char.isWhitespace <:+ s.data :=
    List.dropWhile_suffix Char.isWhitespace
  have h2 : (s.data.dropWhile Char.isWhitespace).reverse.dropWhile Char.isWhitespace
      <:+ (s.data.dropWhile Char.isWhitespace).reverse :=
    List.dropWhile_suffix Char.isWhitespace
  have h3 := List.reverse_prefix.mpr h2
  rw [List.reverse_reverse] at h3
  exact (h3.isInfix).trans h1.isInfix

theorem pySplit_head_isPre (s sep : String) :
    ((pySplit s sep).headD "").data <+: s.data := by
  unfold pySplit
  cases hl : splitChF sep.data s.data.length s.data with
  | nil => exact absurd hl (splitChF_ne_nil sep.data s.data.length s.data)
  | cons x xs =>
    have hpre := splitChF_head_isPre sep.data s.data.length s.data
    rw [hl] at hpre
    simpa using hpre

theorem pySplit_no_occurrence {pat s : String} (h : ¬(pat.data <:+: s.data)) :
    pySplit s pat = [s] := by
  unfold pySplit
  rw [splitChF_no_occurrence s.data.length s.data h]
  rfl

theorem commitLinkStep_bad {u : String} (h : ¬("github.com/".data <:+: u.data))
    (acc : String) : commitLinkStep acc u = Except.error PyErr.indexError := by
  have h1 : ¬("github.com/".data <:+: (pyStrip u).data) :=
    fun hh => h (hh.trans (pyStrip_data_isInfix u))
  have h2 : ¬("github.com/".data
      <:+: ((pySplit (pyStrip u) "/commits").headD "").data) :=
    fun hh => h1 (hh.trans (pySplit_head_isPre (pyStrip u) "/commits").isInfix)
  simp only [commitLinkStep]
  rw [pySplit_no_occurrence h2]
  rfl

theorem commitLinkStep_error_eq {acc u : String} {e : PyErr}
    (h : commitLinkStep acc u = Except.error e) : e = PyErr.indexError := by
  simp only [commitLinkStep] at h
  split at h
  · cases h; rfl
  · exact Except.noConfusion h

theorem commitLinkFold_error_eq : ∀ (urls : List String) (acc : String) {e : PyErr},
    commitLinkFold acc urls = Except.error e → e = PyErr.indexError := by
  intro urls
  induction urls with
  | nil => intro acc e h; exact Except.noConfusion h
  | cons u us ih =>
    intro acc e h
    simp only [commitLinkFold] at h
    cases hs : commitLinkStep acc u with
    | error e' =>
      rw [hs] at h
      cases h
      exact commitLinkStep_error_eq hs
    | ok acc' =>
      rw [hs] at h
      exact ih acc' h

theorem commitLinkFold_bad : ∀ (urls : List String) (acc : String),
    (∃ u ∈ urls, ¬("github.com/".data <:+: u.data)) →
    commitLinkFold acc urls = Except.error PyErr.indexError := by
  intro urls
  induction urls with
  | nil =>
    intro acc h
    obtain ⟨u, hu, -⟩ := h
    cases hu
  | cons u us ih =>
    intro acc h
    simp only [commitLinkFold]
    by_cases hu : ¬("github.com/".data <:+: u.data)
    · rw [commitLinkStep_bad hu acc]
    · cases hs : commitLinkStep acc u with
      | error e =>
        have he := commitLinkStep_error_eq hs
        subst he
        rfl
      | ok acc' =>
        obtain ⟨w, hw, hbad⟩ := h
        rcases List.mem_cons.mp hw with hwu | hwus
        · exact absurd (hwu ▸ hbad) hu
        · exact ih acc' ⟨w, hwus, hbad⟩

theorem commitCell_bad {url : String}
    (h : ∃ u ∈ pySplit url ",", ¬("github.com/".data <:+: u.data)) :
    commitCell url = Except.error PyErr.indexError :=
  commitLinkFold_bad (pySplit url ",") "" h

theorem commitCell_error_eq {url : String} {e : PyErr}
    (h : commitCell url = Except.error e) : e = PyErr.indexError :=
  commitLinkFold_error_eq (pySplit url ",") "" h

/-! ### Claim C8 -/

theorem pc_cond_iff {o : String} {st : LoopState} {r : Repo}
    (h1 : st.repo.asList = r.asList) :
    (o ≠ "" ∨ 1 < (st.repo.normalize).pyLen) ↔ (o ≠ "" ∨ 1 < r.asList.length) := by
  unfold Repo.pyLen
  rw [normalize_asList, h1]

theorem pc_branch_bad {o lp : String} {cols sol : List String} {st : LoopState}
    {c : ContributorStats} {r : Repo}
    (h1 : st.repo.asList = r.asList) (hb : o ≠ "" ∨ 1 < r.asList.length)
    (hbad : ∃ u ∈ pySplit c.commit_url ",", ¬("github.com/".data <:+: u.data)) :
    processCollaborator o lp cols sol st c = Except.error PyErr.indexError := by
  simp only [processCollaborator]
  rw [if_pos ((pc_cond_iff h1).mpr hb), commitCell_bad hbad]

theorem pc_branch_error_index {o lp : String} {cols sol : List String}
    {st : LoopState} {c : ContributorStats} {r : Repo} {e : PyErr}
    (h1 : st.repo.asList = r.asList) (hb : o ≠ "" ∨ 1 < r.asList.length)
    (h : processCollaborator o lp cols sol st c = Except.error e) :
    e = PyErr.indexError := by
  simp only [processCollaborator] at h
  rw [if_pos ((pc_cond_iff h1).mpr hb)] at h
  cases hc : commitCell c.commit_url with
  | error e' =>
    rw [hc] at h
    simp at h
    rw [h] at hc
    exact commitCell_error_eq hc
  | ok s =>
    rw [hc] at h
    simp at h

/-- C8: with the link-splitting branch active (organization filter present or
more than one repository after normalization), a contributor whose
comma-separated `commit_url` holds a URL without the substring `github.com/`
makes `get_contributor_table` raise `IndexError` instead of producing a
table. -/
theorem c8_malformed_commit_url (l : List ContributorStats) (sd ed o : String)
    (r : Repo) (si lp : String) (sol : List String)
    (hb : o ≠ "" ∨ 1 < r.asList.length)
    (hbad : ∃ c ∈ l, ∃ u ∈ pySplit c.commit_url ",",
      ¬("github.com/".data <:+: u.data)) :
    get_contributor_table l sd ed o r si lp sol = Except.error PyErr.indexError := by
  have main : ∀ (ll : List ContributorStats) (st : LoopState),
      st.repo.asList = r.asList →
      (∃ c ∈ ll, ∃ u ∈ pySplit c.commit_url ",", ¬("github.com/".data <:+: u.data)) →
      runLoop ll o lp (columnsFor sd ed si) sol st = Except.error PyErr.indexError := by
    intro ll
    induction ll with
    | nil =>
      intro st h1 hh
      obtain ⟨c, hc, -⟩ := hh
      cases hc
    | cons c cs ih =>
      intro st h1 hh
      unfold runLoop
      by_cases hcb : ∃ u ∈ pySplit c.commit_url ",", ¬("github.com/".data <:+: u.data)
      · rw [pc_branch_bad h1 hb hcb]
      · cases hs : processCollaborator o lp (columnsFor sd ed si) sol st c with
        | error e =>
          have he := pc_branch_error_index h1 hb hs
          subst he
          rfl
        | ok st1 =>
          obtain ⟨w, hw, hbadw⟩ := hh
          rcases List.mem_cons.mp hw with hwc | hwcs
          · exact absurd (hwc ▸ hbadw) hcb
          · have h1' : st1.repo.asList = r.asList := by
              rw [(processCollaborator_ok hs).2.1]
              simpa [Repo.normalize, Repo.asList] using h1
            exact ih st1 h1' ⟨w, hwcs, hbadw⟩
  simp only [get_contributor_table]
  rw [main l { total := 0, repo := r, commit_urls := none, groups := [] } rfl hbad]

theorem c8_witness :
    ((("x" : String) ≠ "" ∨ 1 < (Repo.scalar none).asList.length)
      ∧ (∃ c ∈ [sampleBad], ∃ u ∈ pySplit c.commit_url ",",
          ¬("github.com/".data <:+: u.data)))
    ∧ get_contributor_table [sampleBad] "" "" "x" (Repo.scalar none) "" "" []
        = Except.error PyErr.indexError := by
  refine ⟨⟨Or.inl (by decide), ?_⟩, ?_⟩
  · decide
  · exact c8_malformed_commit_url [sampleBad] "" "" "x" (Repo.scalar none) "" "" []
      (Or.inl (by decide)) (by decide)

/-! ### Claim C3 -/

/-- A `processCollaborator` step, under the loop invariant, is exactly a step
with the uniform cell `specCellE`. -/
theorem pc_spec {o lp : String} {cols sol : List String} {st : LoopState}
    {c : ContributorStats} {r : Repo}
    (h1 : st.repo.asList = r.asList)
    (h2 : ¬(o ≠ "" ∨ 1 < r.asList.length) → st.repo.truthy = true) :
    processCollaborator o lp cols sol st c
      = match specCellE o r c with
        | Except.error e => Except.error e
        | Except.ok cu => Except.ok
            { total := st.total + c.contribution_count
              repo := st.repo.normalize
              commit_urls := some cu
              groups := addToGroup st.groups (groupFor c.organizations sol)
                  (rowFor cols lp c cu) } := by
  simp only [processCollaborator, specCellE]
  by_cases hb : o ≠ "" ∨ 1 < r.asList.length
  · rw [if_pos ((pc_cond_iff h1).mpr hb), if_pos hb]
    cases hc : commitCell c.commit_url with
    | error e => rfl
    | ok s => rfl
  · rw [if_neg (fun hh => hb ((pc_cond_iff h1).mp hh)), if_neg hb]
    rw [h2 hb]
    rfl

theorem runLoop_spec_groups {o lp : String} {cols sol : List String} {r : Repo} :
    ∀ (l : List ContributorStats) (st st' : LoopState),
    st.repo.asList = r.asList →
    (¬(o ≠ "" ∨ 1 < r.asList.length) → st.repo.truthy = true) →
    runLoop l o lp cols sol st = Except.ok st' →
    specFold o lp cols sol r l st.groups = Except.ok st'.groups := by
  intro l
  induction l with
  | nil =>
    intro st st' h1 h2 h
    unfold runLoop at h
    cases h
    rfl
  | cons c cs ih =>
    intro st st' h1 h2 h
    unfold runLoop at h
    rw [pc_spec h1 h2] at h
    cases hc : specCellE o r c with
    | error e =>
      rw [hc] at h
      exact Except.noConfusion h
    | ok cu =>
      rw [hc] at h
      simp only [specFold, hc]
      refine ih _ st' ?_ ?_ h
      · simpa [Repo.normalize, Repo.asList] using h1
      · intro hnb
        have ht := h2 hnb
        have hne := truthy_asList_ne_nil ht
        simp only [LoopState.repo]
        rw [normalize_truthy]
        simp [List.isEmpty_iff, hne]

/-- One link from the code side agrees with the spec-side link. -/
theorem commitLinkStep_ok {acc u acc' : String}
    (h : commitLinkStep acc u = Except.ok acc') :
    ∃ link, specLink u = some link ∧ acc' = acc ++ (link ++ ", ") := by
  simp only [commitLinkStep] at h
  cases hg : (pySplit ((pySplit (pyStrip u) "/commits").headD "") "github.com/").get? 1 with
  | none =>
    rw [hg] at h
    exact Except.noConfusion h
  | some name =>
    rw [hg] at h
    cases h
    refine ⟨"[" ++ name ++ "](" ++ pyStrip u ++ ")", ?_, ?_⟩
    · simp only [specLink]
      rw [hg]
      rfl
    · simp [String.append_assoc]

/-- The code-side fold agrees with the spec-side per-URL mapping. -/
theorem commitLinkFold_ok : ∀ (urls : List String) (acc s : String),
    commitLinkFold acc urls = Except.ok s →
    ∃ links, specLinks urls = some links
      ∧ s = acc ++ strConcat (links.map (fun l => l ++ ", ")) := by
  intro urls
  induction urls with
  | nil =>
    intro acc s h
    cases h
    exact ⟨[], rfl, by simp [strConcat, String.append_empty]⟩
  | cons u us ih =>
    intro acc s h
    simp only [commitLinkFold] at h
    cases hs : commitLinkStep acc u with
    | error e =>
      rw [hs] at h
      exact Except.noConfusion h
    | ok acc' =>
      rw [hs] at h
      obtain ⟨links, hl, hsum⟩ := ih acc' s h
      obtain ⟨link, hlink, hacc⟩ := commitLinkStep_ok hs
      refine ⟨link :: links, ?_, ?_⟩
      · simp [specLinks, hlink, hl]
      · rw [hsum, hacc]
        simp [strConcat, String.append_assoc]

theorem specCellE_ok_c3 {o : String} {r : Repo} {c : ContributorStats} {cu : String}
    (h : specCellE o r c = Except.ok cu) : specCellC3 o r c = some cu := by
  unfold specCellE at h
  unfold specCellC3
  by_cases hb : o ≠ "" ∨ 1 < r.asList.length
  · rw [if_pos hb] at h
    rw [if_pos hb]
    obtain ⟨links, hl, hs⟩ := commitLinkFold_ok _ "" cu h
    have he : ("" : String) ++ strConcat (links.map (fun l => l ++ ", "))
        = strConcat (links.map (fun l => l ++ ", ")) := rfl
    simp [specCommitCell, hl, hs, he]
  · rw [if_neg hb] at h
    rw [if_neg hb]
    cases h
    rfl

theorem specFold_ok_rows {o lp : String} {cols sol : List String} {r : Repo} :
    ∀ (l : List ContributorStats) (G G' : List (String × List String)),
    specFold o lp cols sol r l G = Except.ok G' →
    G' = l.foldl (fun G c => addToGroup G (groupFor c.organizations sol)
        (rowFor cols lp c ((specCellC3 o r c).getD ""))) G := by
  intro l
  induction l with
  | nil =>
    intro G G' h
    cases h
    rfl
  | cons c cs ih =>
    intro G G' h
    simp only [specFold] at h
    cases hc : specCellE o r c with
    | error e =>
      rw [hc] at h
      exact Except.noConfusion h
    | ok cu =>
      rw [hc] at h
      rw [List.foldl_cons, specCellE_ok_c3 hc]
      exact ih _ _ h

theorem specFold_ok_isSome {o lp : String} {cols sol : List String} {r : Repo} :
    ∀ (l : List ContributorStats) (G G' : List (String × List String)),
    specFold o lp cols sol r l G = Except.ok G' →
    ∀ c ∈ l, (specCellC3 o r c).isSome := by
  intro l
  induction l with
  | nil =>
    intro G G' h c hc
    cases hc
  | cons c cs ih =>
    intro G G' h w hw
    simp only [specFold] at h
    cases hc : specCellE o r c with
    | error e =>
      rw [hc] at h
      exact Except.noConfusion h
    | ok cu =>
      rw [hc] at h
      rcases List.mem_cons.mp hw with hwc | hwcs
      · subst hwc
        simp [specCellE_ok_c3 hc]
      · exact ih _ _ h w hwcs

theorem pc_init_unbound {o lp : String} {cols sol : List String}
    {c : ContributorStats} {r : Repo} {G0 : List (String × List String)} {t0 : Nat}
    (hb : ¬(o ≠ "" ∨ 1 < r.asList.length)) (ht : r.truthy = false) :
    processCollaborator o lp cols sol
        { total := t0, repo := r, commit_urls := none, groups := G0 } c
      = Except.error PyErr.unboundLocalError := by
  simp only [processCollaborator]
  have hb' : ¬(o ≠ "" ∨ 1 < (Repo.normalize r).pyLen) := by
    unfold Repo.pyLen
    rw [normalize_asList]
    exact hb
  rw [if_neg hb']
  simp [ht]

/-- C3: for every contributor row actually built by `get_contributor_table`,
the commit-reference cell follows the spec rule: when an organization filter
is active or more than one repository is in scope (after normalizing a scalar
`repository` to a one-element list), the cell is the comma-split `commit_url`
rendered as `[<org>/<repo>](url)` links joined by `", "` with the trailing
separator kept; otherwise the cell is the raw `commit_url` unmodified. The
returned tables are exactly the header block plus those per-contributor rows,
grouped. -/
theorem c3_commit_reference_cells (l : List ContributorStats) (sd ed o : String)
    (r : Repo) (si lp : String) (sol : List String)
    (tables : List (String × String)) (total : Nat)
    (h : get_contributor_table l sd ed o r si lp sol = Except.ok (tables, total)) :
    (∀ c ∈ l, (specCellC3 o r c).isSome)
    ∧ tables = (rowsSpecC3 o r (columnsFor sd ed si) sol lp l).map
        (fun p => (p.1, headersFor (columnsFor sd ed si) ++ strConcat p.2)) := by
  simp only [get_contributor_table] at h
  cases hrun : runLoop l o lp (columnsFor sd ed si) sol
      { total := 0, repo := r, commit_urls := none, groups := [] } with
  | error e =>
    rw [hrun] at h
    exact Except.noConfusion h
  | ok st =>
    rw [hrun] at h
    cases h
    cases l with
    | nil =>
      unfold runLoop at hrun
      cases hrun
      constructor
      · intro c hc
        cases hc
      · rfl
    | cons c cs =>
      have hsf : specFold o lp (columnsFor sd ed si) sol r (c :: cs) []
          = Except.ok st.groups := by
        by_cases hb : o ≠ "" ∨ 1 < r.asList.length
        · exact runLoop_spec_groups (c :: cs) _ st rfl (fun hnb => absurd hb hnb) hrun
        · cases ht : r.truthy with
          | true => exact runLoop_spec_groups (c :: cs) _ st rfl (fun _ => ht) hrun
          | false =>
            exfalso
            unfold runLoop at hrun
            rw [pc_init_unbound hb ht] at hrun
            exact Except.noConfusion hrun
      constructor
      · exact specFold_ok_isSome _ _ _ hsf
      · rw [specFold_ok_rows _ _ _ hsf]
        rfl

theorem c3_witness :
    (specCellC3 "x" (Repo.scalar none) sampleA).isSome
    ∧ [("Independent",
        "| Username | All Time Contribution Count | All Commits |\n| --- | --- | --- |\n| @a | 3 | [o/r](https://github.com/o/r/commits),  |\n")]
      = (rowsSpecC3 "x" (Repo.scalar none) (columnsFor "" "" "") [] "" [sampleA]).map
          (fun p => (p.1, headersFor (columnsFor "" "" "") ++ strConcat p.2)) := by
  constructor
  · exact (c3_commit_reference_cells [sampleA] "" "" "x" (Repo.scalar none) "" "" []
      _ 3 rfl).1 sampleA (by simp)
  · exact (c3_commit_reference_cells [sampleA] "" "" "x" (Repo.scalar none) "" "" []
      _ 3 rfl).2
